import Mathlib

/-!
Verification of the Solana transaction analyzer API route
(`app/api/analyze-transaction/route.ts`).

The TypeScript route is shallowly embedded below.  JavaScript numbers are
modelled as exact rationals (`ℚ`); `BigInt` token amounts as `Int`; strings
as Lean `String`s over their characters.  Network calls (Solana RPC, the
Jupiter market-data endpoints and the text-generation providers) are modelled
by an explicit oracle environment, and every outbound call the code would
make is recorded in an effect trace, so that "made no network call" is a
provable statement.  The module-level Jupiter token cache
(`JUPITER_TOKENS_CACHE` / `CACHE_LOADED`) is threaded through explicitly as
a `CacheState` value.
-/

/-! ## Generic helpers: decimal rendering, parsing, trimming, assoc lists -/

/-- Decimal digit characters of `n`, most significant first, via repeated
division by 10 (the standard base-10 rendering that `Number.prototype.toString`
produces for naturals).  The fuel argument is `n + 1`, always sufficient. -/
def natCharsAux : Nat → Nat → List Char → List Char
  | 0, _, acc => acc
  | fuel + 1, n, acc =>
    let d := Nat.digitChar (n % 10)
    if n < 10 then d :: acc else natCharsAux fuel (n / 10) (d :: acc)

def natChars (n : Nat) : List Char :=
  natCharsAux (n + 1) n []

def natStr (n : Nat) : String :=
  String.mk (natChars n)

/-- The `f` decimal digits of `frac < 10^f`, most significant first,
zero-padded on the left. -/
def padDigits (f : Nat) (frac : Nat) : List Char :=
  (List.range f).map (fun i => Nat.digitChar (frac / 10 ^ (f - 1 - i) % 10))

/-- The integer `n` with `x.toFixed(f) = n / 10^f` for a nonnegative `x`:
ECMAScript picks the `n` minimizing `|n / 10^f - x|`, taking the larger `n`
on ties, i.e. rounding half up for nonnegative inputs. -/
def fixedDigits (f : Nat) (x : ℚ) : Nat :=
  (Rat.floor (x * 10 ^ f + 1 / 2)).toNat

/-- `Number.prototype.toFixed(f)` for a nonnegative rational. -/
def ratToFixedNN (f : Nat) (x : ℚ) : String :=
  let n := fixedDigits f x
  String.mk (natChars (n / 10 ^ f)) ++ "." ++ String.mk (padDigits f (n % 10 ^ f))

/-- `Number.prototype.toFixed(f)`: negative inputs render as `"-"` followed by
the rendering of the absolute value. -/
def ratToFixed (f : Nat) (x : ℚ) : String :=
  if x < 0 then "-" ++ ratToFixedNN f (-x) else ratToFixedNN f x

def digitsToNat (l : List Char) : Nat :=
  l.foldl (fun a c => a * 10 + (c.toNat - 48)) 0

/-- Parse a plain decimal character sequence `intdigits [. fracdigits]`. -/
def parseDecChars (l : List Char) : ℚ :=
  let intPart := l.takeWhile (fun c => c ≠ '.')
  let rest := l.dropWhile (fun c => c ≠ '.')
  let frac := match rest with
    | [] => []
    | _ :: fs => fs
  (digitsToNat intPart : ℚ) + (digitsToNat frac : ℚ) / 10 ^ frac.length

/-- `parseFloat` restricted to the decimal strings `toFixed` produces
(optional leading minus, digits, optional point and digits). -/
def parseDecimalQ (s : String) : ℚ :=
  match s.data with
  | '-' :: rest => -(parseDecChars rest)
  | l => parseDecChars l

/-- The whitespace characters removed by `String.prototype.trim`
(tab, line terminators, space, no-break space, BOM). -/
def jsWhitespace (c : Char) : Bool :=
  [9, 10, 11, 12, 13, 32, 160, 8232, 8233, 65279].contains c.toNat

/-- `String.prototype.trim`. -/
def trimStr (s : String) : String :=
  String.mk (((s.data.dropWhile jsWhitespace).reverse.dropWhile jsWhitespace).reverse)

/-- Join a list of strings with a separator (`Array.prototype.join`). -/
def joinSep (sep : String) : List String → String
  | [] => ""
  | x :: xs => xs.foldl (fun a b => a ++ sep ++ b) x

/-- First-match lookup in an insertion-ordered association list
(JavaScript object property read). -/
def assocGet {α : Type} : List (String × α) → String → Option α
  | [], _ => none
  | (k', v) :: rest, k => if k' = k then some v else assocGet rest k

/-- JavaScript object property write: replace in place if the key exists,
otherwise append (new keys go last in insertion order). -/
def assocSet {α : Type} (c : List (String × α)) (k : String) (v : α) : List (String × α) :=
  match c with
  | [] => [(k, v)]
  | (k', v') :: rest => if k' = k then (k, v) :: rest else (k', v') :: assocSet rest k v

/-- `m[k].push(v)` with `m[k] = []` created on first use. -/
def assocAppend {α : Type} (m : List (String × List α)) (k : String) (v : α) :
    List (String × List α) :=
  match m with
  | [] => [(k, [v])]
  | (k', vs) :: rest =>
    if k' = k then (k', vs ++ [v]) :: rest else (k', vs) :: assocAppend rest k v

/-- `Set.add` keeping first-insertion order (JavaScript `Set`). -/
def insertUnique (l : List String) (x : String) : List String :=
  if x ∈ l then l else l ++ [x]

/-- `Array.from(new Set(xs))`: deduplicate keeping first occurrences. -/
def dedupKeep (xs : List String) : List String :=
  xs.foldl insertUnique []

/-! ## Helper functions from the route (`lamportsToSol`, validation) -/

def lamportsToSol (lamports : ℚ) : ℚ :=
  lamports / 1000000000

/-- One character of the base58 alphabet `[1-9A-HJ-NP-Za-km-z]`. -/
def base58Char (c : Char) : Bool :=
  decide (('1' ≤ c ∧ c ≤ '9') ∨ ('A' ≤ c ∧ c ≤ 'H') ∨ ('J' ≤ c ∧ c ≤ 'N') ∨
    ('P' ≤ c ∧ c ≤ 'Z') ∨ ('a' ≤ c ∧ c ≤ 'k') ∨ ('m' ≤ c ∧ c ≤ 'z'))

/-- `isValidBase58`: the regex `^[1-9A-HJ-NP-Za-km-z]+$`. -/
def isValidBase58 (str : String) : Bool :=
  !str.data.isEmpty && str.data.all base58Char

/-- `isValidSolanaSignature`: falsy input is rejected, then the trimmed string
must have length 87–88 and be base58. -/
def isValidSolanaSignature (signature : String) : Bool :=
  if signature = "" then false
  else
    let trimmedSignature := trimStr signature
    if trimmedSignature.data.length < 87 ∨ 88 < trimmedSignature.data.length then false
    else isValidBase58 trimmedSignature

/-! ## Transaction classification (`determineTransactionType`) -/

def jupiterV4Addr : String := "JUP4Fb2cqiRUcaTHdrPC8h2gNsA2ETXiPDD33WcGuJB"
def jupiterV6Addr : String := "JUP6LkbZbjS1jKKwapdHNy74zcZ3tLUZoi5QNyVTaV4"
def tokenProgramAddr : String := "TokenkegQfeZyiNwAJbNbGKPFXCWuBvf9Ss623VQ5DA"
def stakeProgramAddr : String := "Stake11111111111111111111111111111111111111"
def voteProgramAddr : String := "Vote111111111111111111111111111111111111111"
def systemProgramAddr : String := "11111111111111111111111111111111"

def determineTransactionType (programs : List String) : String :=
  if programs.contains jupiterV4Addr || programs.contains jupiterV6Addr then "Token Swap"
  else if programs.contains tokenProgramAddr then "Token Transfer"
  else if programs.contains stakeProgramAddr then "Stake"
  else if programs.contains voteProgramAddr then "Vote"
  else if programs.contains systemProgramAddr then "SOL Transfer"
  else "Unknown"

/-! ## Data model (route interfaces `JupiterToken`, `JupiterPriceEntry`,
`TokenData`, `TokenBalance` and the parsed-transaction shape) -/

structure JupToken where
  id : String
  name : String
  symbol : String
  icon : String
  decimals : Nat
  usdPrice : Option ℚ
  deriving DecidableEq, Repr

structure PriceEntry where
  usdPrice : ℚ
  decimals : Nat
  deriving DecidableEq, Repr

structure TokenData where
  symbol : String
  name : String
  image : String
  price : ℚ
  decimals : Nat
  deriving DecidableEq, Repr

structure TokenBalance where
  accountIndex : Nat
  mint : String
  owner : Option String
  amount : Int
  uiDecimals : Nat
  deriving DecidableEq, Repr

structure Instr where
  programId : Option String
  programIdIndex : Option Nat
  deriving DecidableEq, Repr

structure TxMeta where
  fee : Option Nat
  err : Bool
  preTokenBalances : Option (List TokenBalance)
  postTokenBalances : Option (List TokenBalance)
  deriving DecidableEq, Repr

structure TxMessage where
  accountKeys : Option (List String)
  instructions : List Instr
  deriving DecidableEq, Repr

structure ParsedTx where
  transaction : Option TxMessage
  meta : Option TxMeta
  blockTime : Option Int
  deriving DecidableEq, Repr

/-- Outbound network calls the route can make, recorded as an effect trace. -/
inductive NetEffect where
  | ledgerFetch (signature : String)
  | solPriceFetch
  | tokenPriceFetch (mints : List String)
  | bulkTokenFetch
  | tokenSearch (mint : String)
  | llmCall (prompt : String)
  deriving DecidableEq, Repr

/-- The module-level mutable state: `JUPITER_TOKENS_CACHE` and `CACHE_LOADED`. -/
structure CacheState where
  cache : List (String × JupToken)
  loaded : Bool
  deriving DecidableEq, Repr

/-- Responses of the external services; a `none` response models a thrown
network error, and the `Option` inside models a missing field in the JSON
body.  `isoOfSec`/`nowIso` model `Date` ISO rendering of the clock. -/
structure TransformEnv where
  solPriceResp : Option (Option ℚ)
  priceResp : List String → Option (List (String × PriceEntry))
  bulkTokens : Option (List JupToken)
  searchResp : String → Option (List JupToken)
  llm : String → Option String
  isoOfSec : Int → String
  nowIso : String

/-! ## Jupiter API functions -/

def loadJupiterTokens (env : TransformEnv) (st : CacheState) : CacheState × List NetEffect :=
  if st.loaded then (st, [])
  else
    match env.bulkTokens with
    | some tokens =>
      ({ cache := tokens.foldl (fun c t => assocSet c t.id t) st.cache, loaded := true },
       [NetEffect.bulkTokenFetch])
    | none => ({ cache := st.cache, loaded := true }, [NetEffect.bulkTokenFetch])

def fetchTokenPrices (env : TransformEnv) (mints : List String) :
    List (String × PriceEntry) × List NetEffect :=
  if mints.isEmpty then ([], [])
  else ((env.priceResp mints).getD [], [NetEffect.tokenPriceFetch mints])

def fetchSolPrice (env : TransformEnv) : ℚ × List NetEffect :=
  (match env.solPriceResp with
   | some (some p) => p
   | some none => 200
   | none => 200,
   [NetEffect.solPriceFetch])

/-- The `TokenData` built from a cached or searched `JupiterToken`:
`priceData?.usdPrice ?? token.usdPrice ?? 0`. -/
def fromCachedToken (token : JupToken) (priceData : Option PriceEntry) : TokenData :=
  { symbol := token.symbol
    name := token.name
    image := token.icon
    price := match priceData with
      | some p => p.usdPrice
      | none => token.usdPrice.getD 0
    decimals := token.decimals }

/-- The synthetic fallback `TokenData` when both lookups fail:
symbol and name are the raw mint, price `priceData?.usdPrice ?? 0`,
decimals `priceData?.decimals ?? 9`. -/
def syntheticToken (mint : String) (priceData : Option PriceEntry) : TokenData :=
  { symbol := mint
    name := mint
    image := ""
    price := match priceData with
      | some p => p.usdPrice
      | none => 0
    decimals := match priceData with
      | some p => p.decimals
      | none => 9 }

def getTokenInfo (env : TransformEnv) (st : CacheState) (mint : String)
    (priceData : Option PriceEntry) : TokenData × CacheState × List NetEffect :=
  let load := loadJupiterTokens env st
  let st1 := load.1
  let eff1 := load.2
  match assocGet st1.cache mint with
  | some token => (fromCachedToken token priceData, st1, eff1)
  | none =>
    match env.searchResp mint with
    | some searchResults =>
      match searchResults.find? (fun t => t.id == mint) with
      | some exactMatch =>
        (fromCachedToken exactMatch priceData,
         { cache := assocSet st1.cache mint exactMatch, loaded := st1.loaded },
         eff1 ++ [NetEffect.tokenSearch mint])
      | none => (syntheticToken mint priceData, st1, eff1 ++ [NetEffect.tokenSearch mint])
    | none => (syntheticToken mint priceData, st1, eff1 ++ [NetEffect.tokenSearch mint])

/-! ## Static tables (`PROGRAM_INFO`, `FALLBACK_EXPLANATIONS`) -/

def PROGRAM_INFO : List (String × String) := [
  ("11111111111111111111111111111111", "System Program"),
  ("ComputeBudget111111111111111111111111111111", "Compute Budget Program"),
  ("TokenkegQfeZyiNwAJbNbGKPFXCWuBvf9Ss623VQ5DA", "Token Program"),
  ("ATokenGPvbdGVxr1b2hvZbsiqW5xWH25efTNsLJA8knL", "Associated Token Program"),
  ("JUP4Fb2cqiRUcaTHdrPC8h2gNsA2ETXiPDD33WcGuJB", "Jupiter Aggregator v4"),
  ("JUP6LkbZbjS1jKKwapdHNy74zcZ3tLUZoi5QNyVTaV4", "Jupiter Aggregator v6"),
  ("Stake11111111111111111111111111111111111111", "Stake Program"),
  ("Vote111111111111111111111111111111111111111", "Vote Program"),
  ("675kPX9MHTjS2zt1qfr1NYHuzeLXfQM9H24wFSUt1Mp8", "Raydium AMM"),
  ("whirLbMiicVdio4qvUfM5KAg6Ct8VwpYzGff3uctyCc", "Orca Whirlpool"),
  ("CAMMCzo5YL8w4VFF8KVHrK22GGUsp5VTaW7grrKgrWqK", "Raydium Concentrated Liquidity"),
  ("Ed25519SigVerify111111111111111111111111111", "Ed25519 Program"),
  ("KeccakSecp256k11111111111111111111111111111", "Secp256k1 Program"),
  ("Sysvar1nstructions1111111111111111111111111", "Sysvar Instructions"),
  ("SysvarRent111111111111111111111111111111111", "Sysvar Rent"),
  ("SysvarC1ock11111111111111111111111111111111", "Sysvar Clock"),
  ("SysvarRecentB1ockHashes1111111111111111111", "Sysvar Recent Blockhashes"),
  ("SysvarEpochSc1hedule11111111111111111111111", "Sysvar Epoch Schedule"),
  ("SysvarFees111111111111111111111111111111111", "Sysvar Fees"),
  ("SysvarStakeHistory11111111111111111111111", "Sysvar Stake History"),
  ("BPFLoaderUpgradeab1e11111111111111111111111", "BPF Loader Upgradeable"),
  ("TokenzQdBNbLqP5VEhdkAS6EPFLC1PHnBqCXEpPxuEb", "Token-2022 Program")]

structure FallbackPair where
  beginner : String
  developer : String
  deriving DecidableEq, Repr

def FALLBACK_EXPLANATIONS : List (String × FallbackPair) := [
  ("Token Swap",
   { beginner := "This transaction was a token swap on Solana! Think of it like exchanging money at a currency exchange booth. Someone traded their tokens through a decentralized exchange, which automatically found the best price across multiple trading pools. The whole process took just a few seconds and cost less than a penny in fees!"
     developer := "This transaction executed a swap instruction through Jupiter's aggregator program. The transaction involved multiple program invocations including Token Program calls for account transfers, associated token account creation, and price oracle queries. The swap utilized a multi-hop route through various AMMs to optimize for minimal slippage and best execution price." }),
  ("Token Transfer",
   { beginner := "This was a simple token transfer on Solana - like sending a digital payment to someone. The tokens moved directly from one wallet to another, secured by Solana's blockchain. The transaction was fast and cheap!"
     developer := "This transaction executed a direct SPL token transfer using the Token Program. The instruction included account validation, balance checks, and atomic transfer execution with proper authority verification." }),
  ("SOL Transfer",
   { beginner := "This was a SOL transfer - Solana's native cryptocurrency moving from one wallet to another. It's like sending digital cash instantly and securely!"
     developer := "This transaction executed a native SOL transfer using the System Program with proper signature verification and balance checks." }),
  ("Stake",
   { beginner := "This transaction staked SOL tokens! Staking is like putting your money in a savings account - you lock up your SOL to help secure the network and earn rewards over time."
     developer := "This transaction created or modified a stake account, delegating SOL to a validator for network security and rewards." }),
  ("Unknown",
   { beginner := "This transaction performed an operation on the Solana blockchain. Transactions on Solana are fast, cheap, and secure!"
     developer := "This transaction executed program instructions on Solana with atomic execution guarantees." })]

/-- `FALLBACK_EXPLANATIONS[txType]?.beginner || FALLBACK_EXPLANATIONS["Unknown"]!.beginner` -/
def fallbackBeginner (txType : String) : String :=
  match assocGet FALLBACK_EXPLANATIONS txType with
  | some f => f.beginner
  | none =>
    match assocGet FALLBACK_EXPLANATIONS "Unknown" with
    | some f => f.beginner
    | none => ""

/-- `FALLBACK_EXPLANATIONS[txType]?.developer || FALLBACK_EXPLANATIONS["Unknown"]!.developer` -/
def fallbackDeveloper (txType : String) : String :=
  match assocGet FALLBACK_EXPLANATIONS txType with
  | some f => f.developer
  | none =>
    match assocGet FALLBACK_EXPLANATIONS "Unknown" with
    | some f => f.developer
    | none => ""

/-! ## Result shapes assembled by `transformTransaction` -/

structure Transfer where
  token : String
  amount : String
  usdValue : String
  from_ : String
  to_ : String
  color : String
  deriving DecidableEq, Repr

structure AccountChange where
  wallet : String
  change : String
  reason : String
  color : String
  type : String
  deriving DecidableEq, Repr

structure StepEntry where
  title : String
  description : String
  time : String
  deriving DecidableEq, Repr

structure ProgramEntry where
  name : String
  description : String
  programId : String
  deriving DecidableEq, Repr

structure FeeInfo where
  sol : String
  usd : String
  deriving DecidableEq, Repr

structure Explanations where
  beginner : String
  developer : String
  deriving DecidableEq, Repr

structure FeeComparison where
  solanaFee : String
  ethereumFee : String
  savings : String
  deriving DecidableEq, Repr

structure ExplanationResult where
  signature : String
  status : String
  timestamp : String
  fee : FeeInfo
  type : String
  explanations : Explanations
  steps : List StepEntry
  programs : List ProgramEntry
  tokenTransfers : List Transfer
  accountChanges : List AccountChange
  feeComparison : FeeComparison
  deriving DecidableEq, Repr

/-! ## AI explanation generators (prompt construction, LLM call, fallback) -/

def beginnerPrompt (txType : String) (tokenTransfers : List Transfer)
    (programNames : List String) (fee : String) : String :=
  let transfersText := joinSep ", "
    (tokenTransfers.map (fun t => t.amount ++ " " ++ t.token ++ " (worth " ++ t.usdValue ++ ")"))
  let programsText := joinSep ", " programNames
  "You are explaining a Solana blockchain transaction to someone who knows nothing about crypto. Be friendly, simple, and use everyday analogies.\n\nTransaction Type: "
    ++ txType ++ "\nToken Transfers: " ++ (if transfersText = "" then "None" else transfersText)
    ++ "\nPrograms Used: " ++ programsText ++ "\nTransaction Fee: $" ++ fee
    ++ "\n\nWrite a beginner-friendly explanation (2-3 sentences) that explains what happened in this transaction. Use simple language and relatable analogies. Make it exciting but accurate!"

def developerPrompt (txType : String) (tokenTransfers : List Transfer)
    (programs : List (String × String)) (fee : String) : String :=
  let transfersText := joinSep ", "
    (tokenTransfers.map (fun t => t.amount ++ " " ++ t.token ++ " (" ++ t.usdValue ++ ")"))
  let programsText := joinSep ", " (programs.map (fun p => p.1 ++ " (" ++ p.2 ++ ")"))
  "You are explaining a Solana blockchain transaction to an experienced blockchain developer. Be technical and precise.\n\nTransaction Type: "
    ++ txType ++ "\nToken Transfers: " ++ (if transfersText = "" then "None" else transfersText)
    ++ "\nPrograms Invoked: " ++ programsText ++ "\nTransaction Fee: $" ++ fee
    ++ "\n\nWrite a technical explanation (2-3 sentences) that describes the transaction mechanics, program invocations, and technical details. Use proper blockchain terminology."

def stepPrompt (stepTitle : String) (txType : String) (stepNumber total : Nat) : String :=
  "You are describing step " ++ natStr stepNumber ++ " of " ++ natStr total ++ " in a "
    ++ txType ++ " transaction on Solana blockchain.\n\nStep Title: " ++ stepTitle
    ++ "\n\nWrite a brief, clear description (1 sentence) of what happens in this step. Be specific and informative."

def programPrompt (programName programId : String) : String :=
  "You are describing a Solana program to a general audience.\n\nProgram Name: "
    ++ programName ++ "\nProgram ID: " ++ programId
    ++ "\n\nWrite a brief, friendly description (1 sentence) of what this program does on Solana. Make it easy to understand."

/-- `generateBeginnerExplanation`: call the active LLM; a thrown error or an
empty trimmed response substitutes the per-classification fallback. -/
def generateBeginnerExplanation (env : TransformEnv) (txType : String)
    (tokenTransfers : List Transfer) (programNames : List String) (fee : String) :
    String × List NetEffect :=
  let prompt := beginnerPrompt txType tokenTransfers programNames fee
  match env.llm prompt with
  | none => (fallbackBeginner txType, [NetEffect.llmCall prompt])
  | some response =>
    let t := trimStr response
    (if t = "" then fallbackBeginner txType else t, [NetEffect.llmCall prompt])

def generateDeveloperExplanation (env : TransformEnv) (txType : String)
    (tokenTransfers : List Transfer) (programs : List (String × String)) (fee : String) :
    String × List NetEffect :=
  let prompt := developerPrompt txType tokenTransfers programs fee
  match env.llm prompt with
  | none => (fallbackDeveloper txType, [NetEffect.llmCall prompt])
  | some response =>
    let t := trimStr response
    (if t = "" then fallbackDeveloper txType else t, [NetEffect.llmCall prompt])

def generateStepDescription (env : TransformEnv) (stepTitle txType : String)
    (stepNumber total : Nat) : String × List NetEffect :=
  let prompt := stepPrompt stepTitle txType stepNumber total
  let fallback := stepTitle ++ " - Step " ++ natStr stepNumber
  match env.llm prompt with
  | none => (fallback, [NetEffect.llmCall prompt])
  | some response =>
    let t := trimStr response
    (if t = "" then fallback else t, [NetEffect.llmCall prompt])

def generateProgramDescription (env : TransformEnv) (programName programId : String) :
    String × List NetEffect :=
  let prompt := programPrompt programName programId
  let fallback := programName ++ " - involved in this transaction"
  match env.llm prompt with
  | none => (fallback, [NetEffect.llmCall prompt])
  | some response =>
    let t := trimStr response
    (if t = "" then fallback else t, [NetEffect.llmCall prompt])

/-- `generateBasicSteps` (titles only; the objects hold a single `title`). -/
def generateBasicSteps (type_ : String) : List String :=
  if type_ = "Token Swap" then
    ["Initialize Swap", "Token Account Check", "Route Calculation", "Execute Swap"]
  else if type_ = "Token Transfer" then
    ["Initialize Transfer", "Verify Accounts", "Execute Transfer"]
  else
    ["Initialize Transaction", "Process Instructions", "Confirm Transaction"]

/-! ## `transformTransaction`: balance-delta loop and result assembly -/

/-- `post.owner || (accountKeys[post.accountIndex] ? pubkeyToBase58(...) : "")`
(account keys are modelled as base58 strings, so `pubkeyToBase58` is the
identity on present keys and `""` on an absent one). -/
def ownerAddressOf (accountKeys : List String) (post : TokenBalance) : String :=
  let fromKeys := (accountKeys.get? post.accountIndex).getD ""
  match post.owner with
  | some o => if o = "" then fromKeys else o
  | none => fromKeys

/-- `preTokenBalances.find(p => p.accountIndex === post.accountIndex && p.mint === post.mint)` -/
def findPre (preTokenBalances : List TokenBalance) (post : TokenBalance) : Option TokenBalance :=
  preTokenBalances.find? (fun p => p.accountIndex == post.accountIndex && p.mint == post.mint)

/-- A post-balance entry that produces a transfer record: a matching
pre-entry exists and the raw delta is non-zero. -/
def qualifies (preTokenBalances : List TokenBalance) (post : TokenBalance) : Bool :=
  match findPre preTokenBalances post with
  | none => false
  | some pre => post.amount != pre.amount

/-- The transfer record pushed onto `tokenTransfers` for one non-zero delta.
`amount` is the signed decimal delta `Number(change) / 10^decimals`. -/
def transferOf (tokenInfo : TokenData) (ownerAddress : String) (amount : ℚ) : Transfer :=
  let absAmount : ℚ := |amount|
  let usdValue : String :=
    if 0 < tokenInfo.price then ratToFixed 2 (absAmount * tokenInfo.price) else "0.00"
  { token := tokenInfo.symbol
    amount := if 0 < amount then "+" ++ ratToFixed 6 absAmount
              else "-" ++ ratToFixed 6 absAmount
    usdValue := "$" ++ usdValue
    from_ := if amount < 0 then ownerAddress else "Pool Account"
    to_ := if 0 < amount then ownerAddress else "Pool Account"
    color := if 0 < amount then "text-green-400" else "text-red-400" }

/-- The entry pushed onto `tokenChangesByWallet[ownerAddress]` for one
non-zero delta (note: no sign prefix for a negative delta). -/
def walletChangeOf (tokenInfo : TokenData) (ownerAddress : String) (amount : ℚ) : AccountChange :=
  let absAmount : ℚ := |amount|
  { wallet := ownerAddress
    change := (if 0 < amount then "+" else "") ++ ratToFixed 6 absAmount
                ++ " " ++ tokenInfo.symbol
    reason := if 0 < amount then "Swap In" else "Swap Out"
    color := if 0 < amount then "text-green-400" else "text-red-400"
    type := if 0 < amount then "swap_in" else "swap_out" }

/-- The body of the `for (const post of postTokenBalances)` loop, with the
accumulated `tokenTransfers`, `tokenChangesByWallet` and effect trace passed
explicitly.  JavaScript float arithmetic on the delta is modelled exactly
over `ℚ`. -/
def txLoop (env : TransformEnv) (preTokenBalances : List TokenBalance)
    (accountKeys : List String) (priceData : List (String × PriceEntry)) :
    List TokenBalance → CacheState → List Transfer →
    List (String × List AccountChange) → List NetEffect →
    List Transfer × List (String × List AccountChange) × CacheState × List NetEffect
  | [], st, accT, accW, accE => (accT, accW, st, accE)
  | post :: rest, st, accT, accW, accE =>
    match findPre preTokenBalances post with
    | none => txLoop env preTokenBalances accountKeys priceData rest st accT accW accE
    | some pre =>
      let change : Int := post.amount - pre.amount
      if change = 0 then txLoop env preTokenBalances accountKeys priceData rest st accT accW accE
      else
        let gti := getTokenInfo env st post.mint (assocGet priceData post.mint)
        let amount : ℚ := (change : ℚ) / 10 ^ post.uiDecimals
        let ownerAddress := ownerAddressOf accountKeys post
        txLoop env preTokenBalances accountKeys priceData rest gti.2.1
          (accT ++ [transferOf gti.1 ownerAddress amount])
          (assocAppend accW ownerAddress (walletChangeOf gti.1 ownerAddress amount))
          (accE ++ gti.2.2)

/-- The mandatory fee entry pushed first onto `accountChanges`. -/
def feeAccountChange (feePayer : String) (solFee : ℚ) : AccountChange :=
  { wallet := feePayer
    change := "-" ++ ratToFixed 9 solFee ++ " SOL"
    reason := "Transaction Fee"
    color := "text-red-400"
    type := "fee" }

/-- `ix.programId || accountKeys[ix.programIdIndex]`, converted to base58. -/
def resolveProgramId (accountKeys : List String) (ix : Instr) : String :=
  let fromKeys := match ix.programIdIndex with
    | some i => (accountKeys.get? i).getD ""
    | none => ""
  match ix.programId with
  | some p => if p = "" then fromKeys else p
  | none => fromKeys

/-- The `programIds` set accumulated over `message.instructions`
(truthy ids only, first-insertion order). -/
def collectProgramIds (accountKeys : List String) (instructions : List Instr) : List String :=
  instructions.foldl
    (fun acc ix =>
      let programId := resolveProgramId accountKeys ix
      if programId ≠ "" then insertUnique acc programId else acc)
    []

/-- `PROGRAM_INFO[id]?.name || "Unknown"` (used for the explanation prompts). -/
def programNameOrUnknown (programId : String) : String :=
  (assocGet PROGRAM_INFO programId).getD "Unknown"

/-- `PROGRAM_INFO[id]?.name || "Unknown Program"` (used for the programs list). -/
def programNameOrUnknownProgram (programId : String) : String :=
  (assocGet PROGRAM_INFO programId).getD "Unknown Program"

def buildStepsAux (env : TransformEnv) (txType : String) (total : Nat) :
    List String → Nat → List StepEntry × List NetEffect
  | [], _ => ([], [])
  | title :: rest, index =>
    let d := generateStepDescription env title txType (index + 1) total
    let r := buildStepsAux env txType total rest (index + 1)
    ({ title := title, description := d.1, time := "Step " ++ natStr (index + 1) } :: r.1,
     d.2 ++ r.2)

def buildSteps (env : TransformEnv) (txType : String) (titles : List String) :
    List StepEntry × List NetEffect :=
  buildStepsAux env txType titles.length titles 0

def buildPrograms (env : TransformEnv) :
    List String → List ProgramEntry × List NetEffect
  | [] => ([], [])
  | programId :: rest =>
    let name := programNameOrUnknownProgram programId
    let d := generateProgramDescription env name programId
    let r := buildPrograms env rest
    ({ name := name, description := d.1, programId := programId } :: r.1, d.2 ++ r.2)

/-- The hardcoded display constant for the fee comparison (`ethFeeAvg = 7.5`). -/
def ethFeeAvg : ℚ := 15 / 2

/-- `(1 - parseFloat(usdFee) / ethFeeAvg) * 100` -/
def savingsOf (usdFee : String) : ℚ :=
  (1 - parseDecimalQ usdFee / ethFeeAvg) * 100

/-- The body of `transformTransaction` after the structural checks, returning
the assembled result, the final module cache state, and the trace of outbound
calls made. -/
def transformCore (env : TransformEnv) (meta : TxMeta) (accountKeys : List String)
    (instructions : List Instr) (blockTime : Option Int) (signature : String)
    (st : CacheState) : ExplanationResult × CacheState × List NetEffect :=
  let sp := fetchSolPrice env
  let solPriceUsd := sp.1
  let solFee : ℚ := lamportsToSol ((meta.fee.getD 0 : Nat) : ℚ)
  let usdFee : String := ratToFixed 4 (solFee * solPriceUsd)
  let preTokenBalances := meta.preTokenBalances.getD []
  let postTokenBalances := meta.postTokenBalances.getD []
  let uniqueMints := dedupKeep (postTokenBalances.map (fun b => b.mint))
  let pr := fetchTokenPrices env uniqueMints
  let priceData := pr.1
  let lp := txLoop env preTokenBalances accountKeys priceData postTokenBalances st [] [] []
  let tokenTransfers := lp.1
  let tokenChangesByWallet := lp.2.1
  let feePayer := (accountKeys.get? 0).getD ""
  let accountChanges :=
    feeAccountChange feePayer solFee :: (tokenChangesByWallet.map (fun p => p.2)).flatten
  let programIds := collectProgramIds accountKeys instructions
  let txType := determineTransactionType programIds
  let beg := generateBeginnerExplanation env txType tokenTransfers
    (programIds.map programNameOrUnknown) usdFee
  let dev := generateDeveloperExplanation env txType tokenTransfers
    (programIds.map (fun id => (programNameOrUnknown id, id))) usdFee
  let steps := buildSteps env txType (generateBasicSteps txType)
  let programs := buildPrograms env programIds
  let savings := ratToFixed 2 (savingsOf usdFee)
  ({ signature := signature
     status := if meta.err then "Failed" else "Confirmed"
     timestamp := match blockTime with
       | some t => env.isoOfSec t
       | none => env.nowIso
     fee := { sol := ratToFixed 9 solFee, usd := usdFee }
     type := txType
     explanations := { beginner := beg.1, developer := dev.1 }
     steps := steps.1
     programs := programs.1
     tokenTransfers := tokenTransfers
     accountChanges := accountChanges
     feeComparison :=
       { solanaFee := "$" ++ usdFee, ethereumFee := "$5–10", savings := savings ++ "%" } },
   lp.2.2.1,
   sp.2 ++ pr.2 ++ lp.2.2.2 ++ beg.2 ++ dev.2 ++ steps.2 ++ programs.2)

/-- `transformTransaction`: `null` when the record has no `transaction`
(modelled as `.ok none`), a thrown `"Invalid transaction structure"` when
`meta` or `accountKeys` is absent (modelled as `.error`), the assembled
result otherwise. -/
def transformTransaction (env : TransformEnv) (tx : ParsedTx) (signature : String)
    (st : CacheState) :
    Except String (Option ExplanationResult) × CacheState × List NetEffect :=
  match tx.transaction with
  | none => (Except.ok none, st, [])
  | some message =>
    match tx.meta, message.accountKeys with
    | some meta, some accountKeys =>
      let r := transformCore env meta accountKeys message.instructions tx.blockTime signature st
      (Except.ok (some r.1), r.2.1, r.2.2)
    | _, _ => (Except.error "Invalid transaction structure", st, [])

/-! ## The `POST` route handler -/

/-- Environment of one `POST` invocation: the parsed body (`none` = JSON
parse failure, `some none` = no `signature` field), the configured API key,
the ledger RPC response, and the transform oracles. -/
structure HandlerEnv where
  bodyParse : Option (Option String)
  activeLLM : String
  apiKeyPresent : Bool
  ledger : Option ParsedTx
  tenv : TransformEnv

structure HandlerResponse where
  status : Nat
  error : Option String
  details : Option String
  result : Option ExplanationResult
  deriving DecidableEq, Repr

def upperStr (s : String) : String :=
  String.mk (s.data.map Char.toUpper)

def mkClientError (msg : String) : HandlerResponse :=
  { status := 400, error := some msg, details := none, result := none }

def POST (env : HandlerEnv) (st : CacheState) :
    HandlerResponse × CacheState × List NetEffect :=
  match env.bodyParse with
  | none => (mkClientError "Invalid JSON in request body", st, [])
  | some body =>
    match body with
    | none => (mkClientError "Transaction signature is required", st, [])
    | some signature =>
      if signature = "" then
        (mkClientError "Transaction signature is required", st, [])
      else if !isValidSolanaSignature signature then
        (mkClientError "Invalid Solana transaction signature format. Signature must be a base58-encoded string of 87-88 characters.", st, [])
      else if !env.apiKeyPresent then
        ({ status := 500,
           error := some (upperStr env.activeLLM ++ " API key not configured. Please set "
             ++ upperStr env.activeLLM ++ "_API_KEY in environment variables."),
           details := none, result := none }, st, [])
      else
        match env.ledger with
        | none =>
          ({ status := 404,
             error := some "Transaction not found. The transaction may not exist or the network is experiencing issues.",
             details := none, result := none }, st, [NetEffect.ledgerFetch signature])
        | some tx =>
          match transformTransaction env.tenv tx signature st with
          | (Except.error msg, st', effs) =>
            ({ status := 500,
               error := some "Internal server error occurred while analyzing transaction",
               details := some msg, result := none }, st',
             NetEffect.ledgerFetch signature :: effs)
          | (Except.ok r, st', effs) =>
            ({ status := 200, error := none, details := none, result := r }, st',
             NetEffect.ledgerFetch signature :: effs)

/-! ## Shared concrete fixtures for witnesses and counterexamples -/

def initialCacheState : CacheState := { cache := [], loaded := false }

/-- An oracle environment where every external service fails. -/
def failEnv : TransformEnv :=
  { solPriceResp := none
    priceResp := fun _ => none
    bulkTokens := none
    searchResp := fun _ => none
    llm := fun _ => none
    isoOfSec := fun _ => ""
    nowIso := "" }

/-- A syntactically valid 88-character base58 signature. -/
def sig88 : String := String.mk (List.replicate 88 'A')

/-- A record with fee 5000 lamports and one token account whose balance
drops by 1.000000 units of mint `MINTX`. -/
def cexMeta : TxMeta :=
  { fee := some 5000
    err := false
    preTokenBalances := some
      [{ accountIndex := 1, mint := "MINTX", owner := some "owner1",
         amount := 5000000, uiDecimals := 6 }]
    postTokenBalances := some
      [{ accountIndex := 1, mint := "MINTX", owner := some "owner1",
         amount := 4000000, uiDecimals := 6 }] }

def cexKeys : List String := ["feePayer", "acct1"]

/-! ## Bridging lemmas used by several proofs -/

theorem isValidSolanaSignature_eq_false_of (s : String)
    (h : (trimStr s).data.length < 87 ∨ 88 < (trimStr s).data.length ∨
      ∃ c ∈ (trimStr s).data, base58Char c = false) :
    isValidSolanaSignature s = false := by
  unfold isValidSolanaSignature
  by_cases hs : s = ""
  · simp [hs]
  · rw [if_neg hs]
    by_cases hlen : (trimStr s).data.length < 87 ∨ 88 < (trimStr s).data.length
    · rw [if_pos hlen]
    · rw [if_neg hlen]
      rcases h with h | h | h
      · exact absurd (Or.inl h) hlen
      · exact absurd (Or.inr h) hlen
      · obtain ⟨c, hc, hcf⟩ := h
        have hall : (trimStr s).data.all base58Char = false := by
          rw [List.all_eq_false]
          exact ⟨c, hc, by simp [hcf]⟩
        unfold isValidBase58
        simp [hall]

theorem valid_signature_ne_empty (s : String) (h : isValidSolanaSignature s = true) :
    s ≠ "" := by
  intro hs
  rw [hs] at h
  simp [isValidSolanaSignature] at h

theorem qdiv_pos_iff (c : Int) (d : Nat) : (0 < (c : ℚ) / 10 ^ d) ↔ 0 < c := by
  have h10 : (0 : ℚ) < 10 ^ d := by positivity
  rw [div_pos_iff]
  constructor
  · rintro (⟨h, _⟩ | ⟨_, h⟩)
    · exact_mod_cast h
    · exact absurd h (not_lt.mpr h10.le)
  · intro hc
    exact Or.inl ⟨by exact_mod_cast hc, h10⟩

theorem qdiv_neg_iff (c : Int) (d : Nat) : ((c : ℚ) / 10 ^ d < 0) ↔ c < 0 := by
  have h10 : (0 : ℚ) < 10 ^ d := by positivity
  rw [div_neg_iff]
  constructor
  · rintro (⟨_, h⟩ | ⟨h, _⟩)
    · exact absurd h (not_lt.mpr h10.le)
    · exact_mod_cast h
  · intro hc
    exact Or.inr ⟨by exact_mod_cast hc, h10⟩

/-! ## C3: invalid signature ⇒ 400 and no network call -/

/-- C3: for every request carrying a signature string that is syntactically
invalid (after trimming, length outside 87–88, or a character outside the
base58 alphabet), the POST handler returns a 400 client error and the
outbound-call trace is empty: no ledger fetch, no price/metadata fetch, no
text-generation call. -/
theorem post_invalid_signature_no_network (env : HandlerEnv) (st : CacheState) (s : String)
    (hbody : env.bodyParse = some (some s))
    (hinv : (trimStr s).data.length < 87 ∨ 88 < (trimStr s).data.length ∨
      ∃ c ∈ (trimStr s).data, base58Char c = false) :
    (POST env st).1.status = 400 ∧ (POST env st).2.2 = [] := by
  have hval := isValidSolanaSignature_eq_false_of s hinv
  unfold POST
  rw [hbody]
  by_cases hs : s = ""
  · simp [hs, mkClientError]
  · simp [hs, hval, mkClientError]

def c3Env : HandlerEnv :=
  { bodyParse := some (some "abc")
    activeLLM := "groq"
    apiKeyPresent := true
    ledger := none
    tenv := failEnv }

/-- Witness for C3 at the concrete too-short signature `"abc"`. -/
theorem post_invalid_signature_no_network_witness :
    (POST c3Env initialCacheState).1.status = 400 ∧
    (POST c3Env initialCacheState).2.2 = [] :=
  post_invalid_signature_no_network c3Env initialCacheState "abc" rfl (Or.inl (by decide))

/-! ## C5: fee conversion scenario -/

/-- C5: for a record with fee 5000 lamports and a SOL reference price of 200,
the transformer renders the native fee with the fixed minor-unit exponent 9 as
`"0.000005000"` and the USD fee (native amount × price, 4 decimal places) as
`"0.0010"`. -/
theorem transformCore_fee_scenario (env : TransformEnv) (meta : TxMeta)
    (accountKeys : List String) (instructions : List Instr) (blockTime : Option Int)
    (signature : String) (st : CacheState)
    (hfee : meta.fee = some 5000) (hprice : (fetchSolPrice env).1 = 200) :
    (transformCore env meta accountKeys instructions blockTime signature st).1.fee =
      { sol := "0.000005000", usd := "0.0010" } := by
  unfold transformCore
  dsimp only
  rw [hfee, hprice]
  show ({ sol := ratToFixed 9 (lamportsToSol ((5000 : Nat) : ℚ)),
          usd := ratToFixed 4 (lamportsToSol ((5000 : Nat) : ℚ) * 200) } : FeeInfo) = _
  with_unfolding_all decide

/-- Witness for C5 at a concrete record and failing price feed (which falls
back to the reference price 200). -/
theorem transformCore_fee_scenario_witness :
    (transformCore failEnv cexMeta cexKeys [] none "sig" initialCacheState).1.fee =
      { sol := "0.000005000", usd := "0.0010" } :=
  transformCore_fee_scenario failEnv cexMeta cexKeys [] none "sig" initialCacheState
    rfl (by with_unfolding_all decide)

/-! ## C6: fee-comparison savings -/

/-- C6: the savings percentage is `(1 − usdFee ÷ 7.5) × 100`, rendered to two
decimal places; it is at most 100 whenever the parsed USD fee is nonnegative
(all fees the transformer produces are); for USD fee `"0.0010"` the rendering
is `"99.99"`, and the transformer's `feeComparison.savings` field is exactly
that rendering of its own USD fee followed by `"%"`. -/
theorem savings_formula_bounded (s : String) (h : 0 ≤ parseDecimalQ s) :
    savingsOf s = (1 - parseDecimalQ s / (15 / 2 : ℚ)) * 100
    ∧ savingsOf s ≤ 100
    ∧ ratToFixed 2 (savingsOf "0.0010") = "99.99"
    ∧ ∀ (env : TransformEnv) (meta : TxMeta) (accountKeys : List String)
        (instructions : List Instr) (blockTime : Option Int) (signature : String)
        (st : CacheState),
        (transformCore env meta accountKeys instructions blockTime signature st).1.feeComparison.savings
          = ratToFixed 2 (savingsOf
              ((transformCore env meta accountKeys instructions blockTime signature st).1.fee.usd))
              ++ "%" := by
  refine ⟨rfl, ?_, by with_unfolding_all decide, ?_⟩
  · unfold savingsOf
    have hdiv : 0 ≤ parseDecimalQ s / ethFeeAvg := by
      apply div_nonneg h
      norm_num [ethFeeAvg]
    nlinarith
  · intro env meta accountKeys instructions blockTime signature st
    unfold transformCore
    dsimp only

/-- Witness for C6 at the concrete USD fee string `"0.0010"`. -/
theorem savings_formula_bounded_witness :
    savingsOf "0.0010" = (1 - parseDecimalQ "0.0010" / (15 / 2 : ℚ)) * 100
    ∧ savingsOf "0.0010" ≤ 100
    ∧ ratToFixed 2 (savingsOf "0.0010") = "99.99"
    ∧ ∀ (env : TransformEnv) (meta : TxMeta) (accountKeys : List String)
        (instructions : List Instr) (blockTime : Option Int) (signature : String)
        (st : CacheState),
        (transformCore env meta accountKeys instructions blockTime signature st).1.feeComparison.savings
          = ratToFixed 2 (savingsOf
              ((transformCore env meta accountKeys instructions blockTime signature st).1.fee.usd))
              ++ "%" :=
  savings_formula_bounded "0.0010" (by with_unfolding_all decide)

theorem contains_eq_true_iff_mem (l : List String) (a : String) :
    l.contains a = true ↔ a ∈ l := by
  simp [List.contains]

/-- C1: `determineTransactionType` classifies by the fixed priority order over
the program-address list: Jupiter aggregator (v4 or v6) ⇒ "Token Swap", else
Token Program ⇒ "Token Transfer", else Stake Program ⇒ "Stake", else Vote
Program ⇒ "Vote", else System Program ⇒ "SOL Transfer", else "Unknown"; in
particular a list containing both a Jupiter address and the Token Program
address classifies as "Token Swap", not "Token Transfer". -/
theorem determineTransactionType_priority (programs : List String) :
    determineTransactionType programs =
      (if jupiterV4Addr ∈ programs ∨ jupiterV6Addr ∈ programs then "Token Swap"
       else if tokenProgramAddr ∈ programs then "Token Transfer"
       else if stakeProgramAddr ∈ programs then "Stake"
       else if voteProgramAddr ∈ programs then "Vote"
       else if systemProgramAddr ∈ programs then "SOL Transfer"
       else "Unknown")
    ∧ ((jupiterV4Addr ∈ programs ∨ jupiterV6Addr ∈ programs) →
        tokenProgramAddr ∈ programs →
        determineTransactionType programs = "Token Swap") := by
  have heq : determineTransactionType programs =
      (if jupiterV4Addr ∈ programs ∨ jupiterV6Addr ∈ programs then "Token Swap"
       else if tokenProgramAddr ∈ programs then "Token Transfer"
       else if stakeProgramAddr ∈ programs then "Stake"
       else if voteProgramAddr ∈ programs then "Vote"
       else if systemProgramAddr ∈ programs then "SOL Transfer"
       else "Unknown") := by
    simp only [determineTransactionType, List.contains, List.elem_eq_mem,
      Bool.or_eq_true, decide_eq_true_eq]
  refine ⟨heq, ?_⟩
  intro hjup _
  rw [heq, if_pos hjup]

/-- Witness for C1 at a concrete program list containing both the Jupiter v6
address and the Token Program address. -/
theorem determineTransactionType_priority_witness :
    determineTransactionType [tokenProgramAddr, jupiterV6Addr] = "Token Swap" :=
  (determineTransactionType_priority [tokenProgramAddr, jupiterV6Addr]).2
    (Or.inr (by decide)) (by decide)

/-! ## C2: balance-delta extraction -/

/-- The claim's per-record sign/label discipline, for the transfer produced
from one post-balance entry: a positive delta renders with a leading `'+'`,
owner in the "to" field and the pool sentinel in "from"; a negative delta
renders with a leading `'-'`, owner in "from" and the pool sentinel in "to". -/
def transferRel (preTokenBalances : List TokenBalance) (accountKeys : List String)
    (post : TokenBalance) (t : Transfer) : Prop :=
  ∀ pre, findPre preTokenBalances post = some pre →
    ((pre.amount < post.amount →
        t.amount.data.head? = some '+' ∧ t.from_ = "Pool Account" ∧
        t.to_ = ownerAddressOf accountKeys post) ∧
     (post.amount < pre.amount →
        t.amount.data.head? = some '-' ∧ t.from_ = ownerAddressOf accountKeys post ∧
        t.to_ = "Pool Account"))

theorem plus_append_head (s : String) : ("+" ++ s).data.head? = some '+' := by
  have h : ("+" : String).data = ['+'] := rfl
  simp [String.data_append, h]

theorem minus_append_head (s : String) : ("-" ++ s).data.head? = some '-' := by
  have h : ("-" : String).data = ['-'] := rfl
  simp [String.data_append, h]

theorem transferOf_pos_fields (tokenInfo : TokenData) (owner : String) (a : ℚ) (h : 0 < a) :
    (transferOf tokenInfo owner a).amount.data.head? = some '+' ∧
    (transferOf tokenInfo owner a).from_ = "Pool Account" ∧
    (transferOf tokenInfo owner a).to_ = owner := by
  have hn : ¬a < 0 := not_lt.mpr h.le
  refine ⟨?_, ?_, ?_⟩
  · simp only [transferOf, if_pos h]
    exact plus_append_head _
  · simp only [transferOf, if_neg hn]
  · simp only [transferOf, if_pos h]

theorem transferOf_neg_fields (tokenInfo : TokenData) (owner : String) (a : ℚ) (h : a < 0) :
    (transferOf tokenInfo owner a).amount.data.head? = some '-' ∧
    (transferOf tokenInfo owner a).from_ = owner ∧
    (transferOf tokenInfo owner a).to_ = "Pool Account" := by
  have hn : ¬0 < a := not_lt.mpr h.le
  refine ⟨?_, ?_, ?_⟩
  · simp only [transferOf, if_neg hn]
    exact minus_append_head _
  · simp only [transferOf, if_pos h]
  · simp only [transferOf, if_neg hn]

theorem transferRel_transferOf (preL : List TokenBalance) (ks : List String)
    (post pre : TokenBalance) (tokenInfo : TokenData)
    (hf : findPre preL post = some pre) (hc : post.amount - pre.amount ≠ 0) :
    transferRel preL ks post
      (transferOf tokenInfo (ownerAddressOf ks post)
        (((post.amount - pre.amount : Int) : ℚ) / 10 ^ post.uiDecimals)) := by
  intro pre' hf'
  rw [hf, Option.some.injEq] at hf'
  cases hf'
  constructor
  · intro hlt
    have hpos : (0 : ℚ) < ((post.amount - pre.amount : Int) : ℚ) / 10 ^ post.uiDecimals :=
      (qdiv_pos_iff _ _).mpr (by omega)
    exact transferOf_pos_fields tokenInfo (ownerAddressOf ks post) _ hpos
  · intro hlt
    have hneg : ((post.amount - pre.amount : Int) : ℚ) / 10 ^ post.uiDecimals < 0 :=
      (qdiv_neg_iff _ _).mpr (by omega)
    exact transferOf_neg_fields tokenInfo (ownerAddressOf ks post) _ hneg

/-- One-step unfolding of the loop when no matching pre-entry exists. -/
theorem txLoop_cons_none (env : TransformEnv) (preL : List TokenBalance) (ks : List String)
    (prices : List (String × PriceEntry)) (post : TokenBalance) (rest : List TokenBalance)
    (st : CacheState) (accT : List Transfer) (accW : List (String × List AccountChange))
    (accE : List NetEffect) (hf : findPre preL post = none) :
    txLoop env preL ks prices (post :: rest) st accT accW accE =
      txLoop env preL ks prices rest st accT accW accE := by
  simp only [txLoop, hf]

/-- One-step unfolding of the loop when a matching pre-entry exists. -/
theorem txLoop_cons_some (env : TransformEnv) (preL : List TokenBalance) (ks : List String)
    (prices : List (String × PriceEntry)) (post : TokenBalance) (rest : List TokenBalance)
    (st : CacheState) (accT : List Transfer) (accW : List (String × List AccountChange))
    (accE : List NetEffect) (pre : TokenBalance) (hf : findPre preL post = some pre) :
    txLoop env preL ks prices (post :: rest) st accT accW accE =
      if post.amount - pre.amount = 0 then
        txLoop env preL ks prices rest st accT accW accE
      else
        txLoop env preL ks prices rest
          (getTokenInfo env st post.mint (assocGet prices post.mint)).2.1
          (accT ++ [transferOf (getTokenInfo env st post.mint (assocGet prices post.mint)).1
              (ownerAddressOf ks post)
              (((post.amount - pre.amount : Int) : ℚ) / 10 ^ post.uiDecimals)])
          (assocAppend accW (ownerAddressOf ks post)
            (walletChangeOf (getTokenInfo env st post.mint (assocGet prices post.mint)).1
              (ownerAddressOf ks post)
              (((post.amount - pre.amount : Int) : ℚ) / 10 ^ post.uiDecimals)))
          (accE ++ (getTokenInfo env st post.mint (assocGet prices post.mint)).2.2) := by
  simp only [txLoop, hf]

theorem qualifies_iff (preL : List TokenBalance) (p : TokenBalance) :
    qualifies preL p = true ↔ ∃ q, findPre preL p = some q ∧ p.amount ≠ q.amount := by
  cases hf : findPre preL p with
  | none => simp [qualifies, hf]
  | some q => simp [qualifies, hf, bne_iff_ne]

theorem txLoop_transfers_append (env : TransformEnv) (preL : List TokenBalance)
    (ks : List String) (prices : List (String × PriceEntry)) :
    ∀ (posts : List TokenBalance) (st : CacheState) (accT : List Transfer)
      (accW : List (String × List AccountChange)) (accE : List NetEffect),
    ∃ new, (txLoop env preL ks prices posts st accT accW accE).1 = accT ++ new ∧
      List.Forall₂ (transferRel preL ks) (posts.filter (fun p => qualifies preL p)) new := by
  intro posts
  induction posts with
  | nil =>
    intro st accT accW accE
    exact ⟨[], by simp [txLoop], List.Forall₂.nil⟩
  | cons post rest ih =>
    intro st accT accW accE
    cases hf : findPre preL post with
    | none =>
      have hq : qualifies preL post = false := by simp [qualifies, hf]
      rw [txLoop_cons_none env preL ks prices post rest st accT accW accE hf,
        List.filter_cons_of_neg (by simp [hq])]
      exact ih st accT accW accE
    | some pre =>
      rw [txLoop_cons_some env preL ks prices post rest st accT accW accE pre hf]
      by_cases hc : post.amount - pre.amount = 0
      · have hq : qualifies preL post = false := by
          simp only [qualifies, hf, bne_eq_false_iff_eq]
          omega
        rw [if_pos hc, List.filter_cons_of_neg (by simp [hq])]
        exact ih st accT accW accE
      · have hq : qualifies preL post = true := by
          rw [qualifies_iff]
          exact ⟨pre, hf, by omega⟩
        rw [if_neg hc, List.filter_cons_of_pos (by simp [hq])]
        obtain ⟨new, h1, h2⟩ := ih
          (getTokenInfo env st post.mint (assocGet prices post.mint)).2.1
          (accT ++ [transferOf (getTokenInfo env st post.mint (assocGet prices post.mint)).1
              (ownerAddressOf ks post)
              (((post.amount - pre.amount : Int) : ℚ) / 10 ^ post.uiDecimals)])
          (assocAppend accW (ownerAddressOf ks post)
            (walletChangeOf (getTokenInfo env st post.mint (assocGet prices post.mint)).1
              (ownerAddressOf ks post)
              (((post.amount - pre.amount : Int) : ℚ) / 10 ^ post.uiDecimals)))
          (accE ++ (getTokenInfo env st post.mint (assocGet prices post.mint)).2.2)
        refine ⟨transferOf (getTokenInfo env st post.mint (assocGet prices post.mint)).1
            (ownerAddressOf ks post)
            (((post.amount - pre.amount : Int) : ℚ) / 10 ^ post.uiDecimals) :: new, ?_, ?_⟩
        · rw [h1, List.append_assoc, List.singleton_append]
        · exact List.Forall₂.cons (transferRel_transferOf preL ks post pre _ hf hc) h2

theorem filter_key_count (Q : TokenBalance → Bool) (i : Nat) (m : String) :
    ∀ (post : List TokenBalance),
    (post.map (fun p => (p.accountIndex, p.mint))).Nodup →
    (post.filter (fun p => (p.accountIndex == i && p.mint == m) && Q p)).length
      = if ∃ p ∈ post, p.accountIndex = i ∧ p.mint = m ∧ Q p = true then 1 else 0 := by
  intro post
  induction post with
  | nil => simp
  | cons p rest ih =>
    intro hkeys
    rw [List.map_cons, List.nodup_cons] at hkeys
    obtain ⟨hnotmem, hnd⟩ := hkeys
    by_cases hkey : p.accountIndex = i ∧ p.mint = m
    · have hrest : ∀ p' ∈ rest, ¬(p'.accountIndex = i ∧ p'.mint = m) := by
        rintro p' hp' ⟨h1, h2⟩
        exact hnotmem (List.mem_map.mpr ⟨p', hp', by simp [h1, h2, hkey.1, hkey.2]⟩)
      have hrestfilter :
          rest.filter (fun p' => (p'.accountIndex == i && p'.mint == m) && Q p') = [] := by
        rw [List.filter_eq_nil_iff]
        intro a ha
        simp only [Bool.and_eq_true, beq_iff_eq, not_and]
        rintro ⟨h1, h2⟩
        exact absurd ⟨h1, h2⟩ (hrest a ha)
      by_cases hQ : Q p = true
      · rw [List.filter_cons_of_pos (by simp [hkey.1, hkey.2, hQ])]
        rw [if_pos ⟨p, List.mem_cons_self p rest, hkey.1, hkey.2, hQ⟩]
        simp [hrestfilter]
      · rw [List.filter_cons_of_neg (by simp [hQ])]
        rw [hrestfilter]
        rw [if_neg ?_]
        · rfl
        · rintro ⟨p', hp', h1, h2, hq⟩
          rcases List.mem_cons.mp hp' with rfl | hp''
          · exact hQ hq
          · exact hrest p' hp'' ⟨h1, h2⟩
    · rw [List.filter_cons_of_neg ?_]
      · rw [ih hnd]
        have hiff : (∃ p' ∈ p :: rest, p'.accountIndex = i ∧ p'.mint = m ∧ Q p' = true) ↔
            (∃ p' ∈ rest, p'.accountIndex = i ∧ p'.mint = m ∧ Q p' = true) := by
          constructor
          · rintro ⟨p', hp', h1, h2, hq⟩
            rcases List.mem_cons.mp hp' with rfl | hp''
            · exact absurd ⟨h1, h2⟩ hkey
            · exact ⟨p', hp'', h1, h2, hq⟩
          · rintro ⟨p', hp', h⟩
            exact ⟨p', List.mem_cons_of_mem p hp', h⟩
        rw [if_congr hiff rfl rfl]
      · simp only [Bool.and_eq_true, beq_iff_eq, not_and]
        rintro ⟨h1, h2⟩
        exact absurd ⟨h1, h2⟩ hkey

/-- C2: on a record whose post-balance entries have pairwise-distinct
(account index, mint) keys, the loop produces exactly one transfer per
post-entry with a matching pre-entry and a non-zero delta (`qualifies`), and
none otherwise; each produced record's amount string starts `'+'` with the
owner in "to" and the pool sentinel in "from" exactly for a positive delta,
and starts `'-'` with the labels swapped for a negative one. -/
theorem txLoop_delta_extraction (env : TransformEnv) (preL : List TokenBalance)
    (posts : List TokenBalance) (ks : List String) (prices : List (String × PriceEntry))
    (st : CacheState)
    (hkeys : (posts.map (fun p => (p.accountIndex, p.mint))).Nodup) :
    (∀ p, qualifies preL p = true ↔ ∃ q, findPre preL p = some q ∧ p.amount ≠ q.amount)
    ∧ List.Forall₂ (transferRel preL ks) (posts.filter (fun p => qualifies preL p))
        (txLoop env preL ks prices posts st [] [] []).1
    ∧ (txLoop env preL ks prices posts st [] [] []).1.length
        = (posts.filter (fun p => qualifies preL p)).length
    ∧ ∀ i m,
        (posts.filter (fun p => (p.accountIndex == i && p.mint == m) && qualifies preL p)).length
          = if ∃ p ∈ posts, p.accountIndex = i ∧ p.mint = m ∧ qualifies preL p = true
            then 1 else 0 := by
  obtain ⟨new, h1, h2⟩ := txLoop_transfers_append env preL ks prices posts st [] [] []
  rw [List.nil_append] at h1
  refine ⟨fun p => qualifies_iff preL p, ?_, ?_, ?_⟩
  · rw [h1]; exact h2
  · rw [h1, List.Forall₂.length_eq h2]
  · intro i m
    exact filter_key_count (fun p => qualifies preL p) i m posts hkeys

def cexPre : List TokenBalance := cexMeta.preTokenBalances.getD []

def cexPost : List TokenBalance := cexMeta.postTokenBalances.getD []

/-- Witness for C2 at the concrete one-entry record of `cexMeta`. -/
theorem txLoop_delta_extraction_witness :
    (∀ p, qualifies cexPre p = true ↔ ∃ q, findPre cexPre p = some q ∧ p.amount ≠ q.amount)
    ∧ List.Forall₂ (transferRel cexPre cexKeys)
        (cexPost.filter (fun p => qualifies cexPre p))
        (txLoop failEnv cexPre cexKeys [] cexPost initialCacheState [] [] []).1
    ∧ (txLoop failEnv cexPre cexKeys [] cexPost initialCacheState [] [] []).1.length
        = (cexPost.filter (fun p => qualifies cexPre p)).length
    ∧ ∀ i m,
        (cexPost.filter (fun p => (p.accountIndex == i && p.mint == m) && qualifies cexPre p)).length
          = if ∃ p ∈ cexPost, p.accountIndex = i ∧ p.mint = m ∧ qualifies cexPre p = true
            then 1 else 0 :=
  txLoop_delta_extraction failEnv cexPre cexPost cexKeys [] initialCacheState (by decide)

/-! ## C4: amount-string signs.  The claim fails on the code: the wallet
account-change entry for a negative delta is rendered without any sign. -/

theorem natCharsAux_head (fuel : Nat) :
    ∀ (n : Nat) (acc : List Char),
    ∃ m : Nat, (natCharsAux (fuel + 1) n acc).head? = some (Nat.digitChar (m % 10)) := by
  induction fuel with
  | zero =>
    intro n acc
    refine ⟨n, ?_⟩
    by_cases h : n < 10 <;> simp [natCharsAux, h]
  | succ fuel ih =>
    intro n acc
    by_cases h : n < 10
    · exact ⟨n, by simp [natCharsAux, h]⟩
    · obtain ⟨m, hm⟩ := ih (n / 10) (Nat.digitChar (n % 10) :: acc)
      exact ⟨m, by simpa [natCharsAux, h] using hm⟩

theorem natChars_head_digit (n : Nat) :
    ∃ d, (natChars n).head? = some d ∧ d.isDigit = true := by
  obtain ⟨m, hm⟩ := natCharsAux_head n n []
  refine ⟨Nat.digitChar (m % 10), hm, ?_⟩
  have hall : ∀ k < 10, (Nat.digitChar k).isDigit = true := by decide
  exact hall _ (Nat.mod_lt _ (by norm_num))

theorem string_mk_data (l : List Char) : (String.mk l).data = l := rfl

theorem ratToFixed_nonneg_head_digit (f : Nat) (x : ℚ) (h : 0 ≤ x) :
    ∃ d, (ratToFixed f x).data.head? = some d ∧ d.isDigit = true := by
  rw [ratToFixed, if_neg (not_lt.mpr h)]
  obtain ⟨d, hd, hdig⟩ := natChars_head_digit (fixedDigits f x / 10 ^ f)
  refine ⟨d, ?_, hdig⟩
  unfold ratToFixedNN
  simp [String.data_append, string_mk_data, List.head?_append, hd]

theorem walletChangeOf_change_head (tokenInfo : TokenData) (owner : String) (a : ℚ) :
    (walletChangeOf tokenInfo owner a).change.data.head? = some '+' ∨
    ∃ d, (walletChangeOf tokenInfo owner a).change.data.head? = some d ∧ d.isDigit = true := by
  by_cases h : 0 < a
  · left
    have hp : ("+" : String).data = ['+'] := rfl
    simp [walletChangeOf, if_pos h, String.data_append, List.head?_append, hp]
  · right
    obtain ⟨d, hd, hdig⟩ := ratToFixed_nonneg_head_digit 6 |a| (abs_nonneg a)
    refine ⟨d, ?_, hdig⟩
    have he : ("" : String).data = [] := rfl
    simp [walletChangeOf, if_neg h, String.data_append, List.head?_append, he, hd]

theorem forall₂_exists_of_mem_right {α β : Type} {R : α → β → Prop}
    {l₁ : List α} {l₂ : List β} (h : List.Forall₂ R l₁ l₂) {b : β} (hb : b ∈ l₂) :
    ∃ a ∈ l₁, R a b := by
  induction h with
  | nil => cases hb
  | cons hr _ ih =>
    rcases List.mem_cons.mp hb with rfl | hb'
    · exact ⟨_, List.mem_cons_self _ _, hr⟩
    · obtain ⟨a, ha, hra⟩ := ih hb'
      exact ⟨a, List.mem_cons_of_mem _ ha, hra⟩

theorem forall₂_exists_of_mem_left {α β : Type} {R : α → β → Prop}
    {l₁ : List α} {l₂ : List β} (h : List.Forall₂ R l₁ l₂) {a : α} (ha : a ∈ l₁) :
    ∃ b ∈ l₂, R a b := by
  induction h with
  | nil => cases ha
  | cons hr _ ih =>
    rcases List.mem_cons.mp ha with rfl | ha'
    · exact ⟨_, List.mem_cons_self _ _, hr⟩
    · obtain ⟨b, hb, hrb⟩ := ih ha'
      exact ⟨b, List.mem_cons_of_mem _ hb, hrb⟩

theorem mem_flatten_assocAppend {α : Type} (m : List (String × List α)) (k : String)
    (v : α) (c : α)
    (hc : c ∈ ((assocAppend m k v).map (fun p => p.2)).flatten) :
    c = v ∨ c ∈ (m.map (fun p => p.2)).flatten := by
  induction m with
  | nil =>
    simp [assocAppend] at hc
    exact Or.inl hc
  | cons p rest ih =>
    obtain ⟨k', vs⟩ := p
    by_cases h : k' = k
    · simp only [assocAppend, if_pos h, List.map_cons, List.flatten_cons, List.mem_append,
        List.mem_singleton] at hc
      simp only [List.map_cons, List.flatten_cons, List.mem_append]
      tauto
    · simp only [assocAppend, if_neg h, List.map_cons, List.flatten_cons,
        List.mem_append] at hc
      simp only [List.map_cons, List.flatten_cons, List.mem_append]
      rcases hc with hc | hc
      · exact Or.inr (Or.inl hc)
      · rcases ih hc with h' | h'
        · exact Or.inl h'
        · exact Or.inr (Or.inr h')

theorem txLoop_walletChanges (env : TransformEnv) (preL : List TokenBalance)
    (ks : List String) (prices : List (String × PriceEntry)) (P : AccountChange → Prop)
    (hP : ∀ tokenInfo owner a, P (walletChangeOf tokenInfo owner a)) :
    ∀ (posts : List TokenBalance) (st : CacheState) (accT : List Transfer)
      (accW : List (String × List AccountChange)) (accE : List NetEffect),
      (∀ c ∈ (accW.map (fun p => p.2)).flatten, P c) →
      ∀ c ∈ (((txLoop env preL ks prices posts st accT accW accE).2.1).map
          (fun p => p.2)).flatten, P c := by
  intro posts
  induction posts with
  | nil =>
    intro st accT accW accE hacc c hc
    exact hacc c (by simpa [txLoop] using hc)
  | cons post rest ih =>
    intro st accT accW accE hacc c hc
    rcases hf : findPre preL post with _ | pre
    · rw [txLoop_cons_none env preL ks prices post rest st accT accW accE hf] at hc
      exact ih st accT accW accE hacc c hc
    · rw [txLoop_cons_some env preL ks prices post rest st accT accW accE pre hf] at hc
      by_cases hzero : post.amount - pre.amount = 0
      · rw [if_pos hzero] at hc
        exact ih st accT accW accE hacc c hc
      · rw [if_neg hzero] at hc
        refine ih _ _ _ _ ?_ c hc
        intro c' hc'
        rcases mem_flatten_assocAppend _ _ _ _ hc' with rfl | hc''
        · exact hP _ _ _
        · exact hacc c' hc''

/-- C4 (amended): every transfer amount string carries a leading `'+'` or
`'-'`; the account-change list always starts with the fee entry for the
fee payer (account index 0), whose amount string starts with `'-'`; all
further account-change entries start with `'+'` for a positive delta but
carry no sign for a negative delta — their amount string starts with a
digit. -/
theorem transformCore_amount_signs (env : TransformEnv) (meta : TxMeta)
    (ks : List String) (instrs : List Instr) (bt : Option Int) (sig : String)
    (st : CacheState) :
    (∀ t ∈ (transformCore env meta ks instrs bt sig st).1.tokenTransfers,
        t.amount.data.head? = some '+' ∨ t.amount.data.head? = some '-')
    ∧ ((transformCore env meta ks instrs bt sig st).1.accountChanges.head?.map
        (fun c => (c.wallet, c.type, c.change.data.head?)))
        = some ((ks.get? 0).getD "", "fee", some '-')
    ∧ ∀ c ∈ (transformCore env meta ks instrs bt sig st).1.accountChanges.tail,
        c.change.data.head? = some '+' ∨
        ∃ d, c.change.data.head? = some d ∧ d.isDigit = true := by
  have htrans : (transformCore env meta ks instrs bt sig st).1.tokenTransfers
      = (txLoop env (meta.preTokenBalances.getD []) ks
          (fetchTokenPrices env
            (dedupKeep ((meta.postTokenBalances.getD []).map (fun b => b.mint)))).1
          (meta.postTokenBalances.getD []) st [] [] []).1 := rfl
  have hacct : (transformCore env meta ks instrs bt sig st).1.accountChanges
      = feeAccountChange ((ks.get? 0).getD "")
          (lamportsToSol ((meta.fee.getD 0 : Nat) : ℚ)) ::
        (((txLoop env (meta.preTokenBalances.getD []) ks
            (fetchTokenPrices env
              (dedupKeep ((meta.postTokenBalances.getD []).map (fun b => b.mint)))).1
            (meta.postTokenBalances.getD []) st [] [] []).2.1).map
          (fun p => p.2)).flatten := rfl
  refine ⟨?_, ?_, ?_⟩
  · intro t ht
    rw [htrans] at ht
    obtain ⟨new, h1, h2⟩ := txLoop_transfers_append env (meta.preTokenBalances.getD []) ks
      (fetchTokenPrices env
        (dedupKeep ((meta.postTokenBalances.getD []).map (fun b => b.mint)))).1
      (meta.postTokenBalances.getD []) st [] [] []
    rw [List.nil_append] at h1
    rw [h1] at ht
    obtain ⟨p, hp, hrel⟩ := forall₂_exists_of_mem_right h2 ht
    have hq := (List.mem_filter.mp hp).2
    obtain ⟨q, hfq, hne⟩ := (qualifies_iff _ p).mp hq
    obtain ⟨hpos, hneg⟩ := hrel q hfq
    rcases lt_or_gt_of_ne hne with hlt | hlt
    · exact Or.inr (hneg hlt).1
    · exact Or.inl (hpos hlt).1
  · rw [hacct]
    have hm : ("-" ++ ratToFixed 9 (lamportsToSol ((meta.fee.getD 0 : Nat) : ℚ)) ++ " SOL").data.head?
        = some '-' := by
      have hp : ("-" : String).data = ['-'] := rfl
      simp [String.data_append, List.head?_append, hp]
    simp [feeAccountChange, hm]
  · intro c hc
    rw [hacct] at hc
    simp only [List.tail_cons] at hc
    exact txLoop_walletChanges env (meta.preTokenBalances.getD []) ks
      (fetchTokenPrices env
        (dedupKeep ((meta.postTokenBalances.getD []).map (fun b => b.mint)))).1
      (fun c => c.change.data.head? = some '+' ∨
        ∃ d, c.change.data.head? = some d ∧ d.isDigit = true)
      (fun tokenInfo owner a => walletChangeOf_change_head tokenInfo owner a)
      (meta.postTokenBalances.getD []) st [] [] [] (by simp) c hc

/-- Witness for the amended C4, at the concrete record of `cexMeta`
(the fee entry heads the account-change list with a `'-'`-signed amount). -/
theorem transformCore_amount_signs_witness :
    ((transformCore failEnv cexMeta cexKeys [] none "sig" initialCacheState).1.accountChanges.head?.map
        (fun c => (c.wallet, c.type, c.change.data.head?)))
        = some ((cexKeys.get? 0).getD "", "fee", some '-') :=
  (transformCore_amount_signs failEnv cexMeta cexKeys [] none "sig" initialCacheState).2.1

/-- Counterexample to C4 as stated: on the concrete record of `cexMeta`
(one token account losing 1.000000 units of `MINTX`), the account-change
list contains the entry `"1.000000 MINTX"`, whose amount string carries no
leading sign. -/
theorem transformCore_unsigned_change_cex :
    ((transformCore failEnv cexMeta cexKeys [] none "sig" initialCacheState).1.accountChanges.map
        (fun c => c.change)) = ["-0.000005000 SOL", "1.000000 MINTX"]
    ∧ ¬("1.000000 MINTX".data.head? = some '+' ∨
        "1.000000 MINTX".data.head? = some '-') := by
  constructor
  · with_unfolding_all decide
  · decide

/-! ## C7: metadata lookup never fails its caller -/

/-- The bulk token list (if it loads at all) does not contain `mint`. -/
def bulkMisses (env : TransformEnv) (mint : String) : Prop :=
  ∀ toks, env.bulkTokens = some toks → ∀ t ∈ toks, t.id ≠ mint

/-- The search endpoint (if it answers at all) has no exact match for `mint`. -/
def searchMisses (env : TransformEnv) (mint : String) : Prop :=
  ∀ rs, env.searchResp mint = some rs → rs.find? (fun t => t.id == mint) = none

theorem assocGet_assocSet_ne {α : Type} (c : List (String × α)) (k k' : String) (v : α)
    (h : k ≠ k') : assocGet (assocSet c k v) k' = assocGet c k' := by
  induction c with
  | nil => simp [assocSet, assocGet, h]
  | cons p rest ih =>
    obtain ⟨k₀, v₀⟩ := p
    by_cases hk : k₀ = k
    · subst hk
      simp [assocSet, assocGet, h]
    · simp only [assocSet, if_neg hk]
      by_cases hk' : k₀ = k'
      · simp [assocGet, hk']
      · simp [assocGet, hk', ih]

theorem assocGet_foldl_assocSet (mint : String) :
    ∀ (toks : List JupToken) (c : List (String × JupToken)),
      (∀ t ∈ toks, t.id ≠ mint) → assocGet c mint = none →
      assocGet (toks.foldl (fun c t => assocSet c t.id t) c) mint = none := by
  intro toks
  induction toks with
  | nil => intro c _ hc; simpa using hc
  | cons t rest ih =>
    intro c h hc
    simp only [List.foldl_cons]
    refine ih _ (fun t' ht' => h t' (List.mem_cons_of_mem _ ht')) ?_
    rw [assocGet_assocSet_ne c t.id mint t (h t (List.mem_cons_self _ _))]
    exact hc

theorem loadJupiterTokens_preserves_none (env : TransformEnv) (st : CacheState)
    (mint : String) (hb : bulkMisses env mint) (hc : assocGet st.cache mint = none) :
    assocGet (loadJupiterTokens env st).1.cache mint = none := by
  unfold loadJupiterTokens
  by_cases hl : st.loaded = true
  · simp [hl, hc]
  · simp only [Bool.not_eq_true] at hl
    cases hbt : env.bulkTokens with
    | some toks =>
      simp only [hl, Bool.false_eq_true, if_false, hbt]
      exact assocGet_foldl_assocSet mint toks st.cache (hb toks hbt) hc
    | none => simp [hl, hbt, hc]

theorem getTokenInfo_synthetic_of_misses (env : TransformEnv) (st : CacheState)
    (mint : String) (pd : Option PriceEntry)
    (hb : bulkMisses env mint) (hs : searchMisses env mint)
    (hc : assocGet st.cache mint = none) :
    (getTokenInfo env st mint pd).1 = syntheticToken mint pd := by
  unfold getTokenInfo
  simp only [loadJupiterTokens_preserves_none env st mint hb hc]
  cases hrs : env.searchResp mint with
  | none => simp [hrs]
  | some rs => simp [hrs, hs rs hrs]

theorem getTokenInfo_preserves_none (env : TransformEnv) (st : CacheState)
    (mint m' : String) (pd : Option PriceEntry)
    (hb : bulkMisses env mint) (hs : searchMisses env mint)
    (hc : assocGet st.cache mint = none) :
    assocGet ((getTokenInfo env st m' pd).2.1).cache mint = none := by
  have h1 := loadJupiterTokens_preserves_none env st mint hb hc
  unfold getTokenInfo
  cases hget : assocGet (loadJupiterTokens env st).1.cache m' with
  | some tok => simpa [hget] using h1
  | none =>
    cases hrs : env.searchResp m' with
    | none => simpa [hget, hrs] using h1
    | some rs =>
      cases hfind : rs.find? (fun t => t.id == m') with
      | none => simpa [hget, hrs, hfind] using h1
      | some exactMatch =>
        simp only [hget, hrs, hfind]
        by_cases hmm : m' = mint
        · subst hmm
          rw [hs rs hrs] at hfind
          cases hfind
        · show assocGet (assocSet (loadJupiterTokens env st).1.cache m' exactMatch) mint = none
          rw [assocGet_assocSet_ne _ _ _ _ hmm]
          exact h1

theorem txLoop_failedMint (env : TransformEnv) (preL : List TokenBalance)
    (ks : List String) (prices : List (String × PriceEntry)) (mint : String)
    (hb : bulkMisses env mint) (hs : searchMisses env mint)
    (hp : assocGet prices mint = none) :
    ∀ (posts : List TokenBalance) (st : CacheState) (accT : List Transfer)
      (accW : List (String × List AccountChange)) (accE : List NetEffect),
      assocGet st.cache mint = none →
    ∃ new, (txLoop env preL ks prices posts st accT accW accE).1 = accT ++ new ∧
      List.Forall₂ (fun p t => p.mint = mint → t.token = mint ∧ t.usdValue = "$0.00")
        (posts.filter (fun p => qualifies preL p)) new := by
  intro posts
  induction posts with
  | nil =>
    intro st accT accW accE _
    exact ⟨[], by simp [txLoop], List.Forall₂.nil⟩
  | cons post rest ih =>
    intro st accT accW accE hcache
    cases hf : findPre preL post with
    | none =>
      have hq : qualifies preL post = false := by simp [qualifies, hf]
      rw [txLoop_cons_none env preL ks prices post rest st accT accW accE hf,
        List.filter_cons_of_neg (by simp [hq])]
      exact ih st accT accW accE hcache
    | some pre =>
      rw [txLoop_cons_some env preL ks prices post rest st accT accW accE pre hf]
      by_cases hc : post.amount - pre.amount = 0
      · have hq : qualifies preL post = false := by
          simp only [qualifies, hf, bne_eq_false_iff_eq]
          omega
        rw [if_pos hc, List.filter_cons_of_neg (by simp [hq])]
        exact ih st accT accW accE hcache
      · have hq : qualifies preL post = true := by
          rw [qualifies_iff]
          exact ⟨pre, hf, by omega⟩
        rw [if_neg hc, List.filter_cons_of_pos (by simp [hq])]
        have hpres : assocGet
            ((getTokenInfo env st post.mint (assocGet prices post.mint)).2.1).cache mint
              = none :=
          getTokenInfo_preserves_none env st mint post.mint _ hb hs hcache
        obtain ⟨new, h1, h2⟩ := ih
          (getTokenInfo env st post.mint (assocGet prices post.mint)).2.1
          (accT ++ [transferOf (getTokenInfo env st post.mint (assocGet prices post.mint)).1
              (ownerAddressOf ks post)
              (((post.amount - pre.amount : Int) : ℚ) / 10 ^ post.uiDecimals)])
          (assocAppend accW (ownerAddressOf ks post)
            (walletChangeOf (getTokenInfo env st post.mint (assocGet prices post.mint)).1
              (ownerAddressOf ks post)
              (((post.amount - pre.amount : Int) : ℚ) / 10 ^ post.uiDecimals)))
          (accE ++ (getTokenInfo env st post.mint (assocGet prices post.mint)).2.2) hpres
        refine ⟨transferOf (getTokenInfo env st post.mint (assocGet prices post.mint)).1
            (ownerAddressOf ks post)
            (((post.amount - pre.amount : Int) : ℚ) / 10 ^ post.uiDecimals) :: new, ?_, ?_⟩
        · rw [h1, List.append_assoc, List.singleton_append]
        · refine List.Forall₂.cons ?_ h2
          intro hmint
          have hsyn : (getTokenInfo env st post.mint (assocGet prices post.mint)).1
              = syntheticToken mint none := by
            rw [hmint, hp]
            exact getTokenInfo_synthetic_of_misses env st mint none hb hs hcache
          constructor
          · simp [transferOf, hsyn, syntheticToken]
          · have hprice : ¬(0 : ℚ) <
                (getTokenInfo env st post.mint (assocGet prices post.mint)).1.price := by
              rw [hsyn]
              simp [syntheticToken]
            simp only [transferOf, if_neg hprice]
            rfl

/-- C7: when the bulk cache and the per-token search both fail to produce a
mint, `getTokenInfo` still returns a usable synthetic `TokenData` whose
symbol is the raw mint, whose price is the price feed's value or 0, and
whose decimals are the price feed's or 9; consequently a qualifying transfer
for such a mint still appears in the transfer list, with symbol equal to the
raw mint and USD value `"$0.00"`. -/
theorem getTokenInfo_never_fails (env : TransformEnv) (st : CacheState) (mint : String)
    (pd : Option PriceEntry) (preL posts : List TokenBalance) (ks : List String)
    (prices : List (String × PriceEntry)) (p : TokenBalance)
    (hb : bulkMisses env mint) (hs : searchMisses env mint) :
    (assocGet st.cache mint = none →
      (getTokenInfo env st mint pd).1.symbol = mint ∧
      (getTokenInfo env st mint pd).1.price =
        (match pd with
         | some e => e.usdPrice
         | none => 0) ∧
      (getTokenInfo env st mint pd).1.decimals =
        (match pd with
         | some e => e.decimals
         | none => 9))
    ∧ (assocGet st.cache mint = none → assocGet prices mint = none →
        p ∈ posts → qualifies preL p = true → p.mint = mint →
        ∃ t ∈ (txLoop env preL ks prices posts st [] [] []).1,
          t.token = mint ∧ t.usdValue = "$0.00") := by
  constructor
  · intro hc
    rw [getTokenInfo_synthetic_of_misses env st mint pd hb hs hc]
    exact ⟨rfl, rfl, rfl⟩
  · intro hc hp hmem hq hmint
    obtain ⟨new, h1, h2⟩ := txLoop_failedMint env preL ks prices mint hb hs hp posts st
      [] [] [] hc
    rw [List.nil_append] at h1
    have hpf : p ∈ posts.filter (fun p => qualifies preL p) :=
      List.mem_filter.mpr ⟨hmem, hq⟩
    obtain ⟨t, ht, hrt⟩ := forall₂_exists_of_mem_left h2 hpf
    exact ⟨t, by rw [h1]; exact ht, hrt hmint⟩

def cexPostEntry : TokenBalance :=
  { accountIndex := 1, mint := "MINTX", owner := some "owner1",
    amount := 4000000, uiDecimals := 6 }

/-- Witness for C7 at the concrete record of `cexMeta` with every lookup
failing. -/
theorem getTokenInfo_never_fails_witness :
    (assocGet initialCacheState.cache "MINTX" = none →
      (getTokenInfo failEnv initialCacheState "MINTX" none).1.symbol = "MINTX" ∧
      (getTokenInfo failEnv initialCacheState "MINTX" none).1.price =
        (match (none : Option PriceEntry) with
         | some e => e.usdPrice
         | none => 0) ∧
      (getTokenInfo failEnv initialCacheState "MINTX" none).1.decimals =
        (match (none : Option PriceEntry) with
         | some e => e.decimals
         | none => 9))
    ∧ (assocGet initialCacheState.cache "MINTX" = none →
        assocGet ([] : List (String × PriceEntry)) "MINTX" = none →
        cexPostEntry ∈ cexPost → qualifies cexPre cexPostEntry = true →
        cexPostEntry.mint = "MINTX" →
        ∃ t ∈ (txLoop failEnv cexPre cexKeys [] cexPost initialCacheState [] [] []).1,
          t.token = "MINTX" ∧ t.usdValue = "$0.00") :=
  getTokenInfo_never_fails failEnv initialCacheState "MINTX" none cexPre cexPost cexKeys []
    cexPostEntry
    (fun toks h => by simp [failEnv] at h)
    (fun rs h => by simp [failEnv] at h)

/-! ## C9: the bulk token-list load is attempted at most once per process -/

/-- C9: `loadJupiterTokens` sets `CACHE_LOADED` even when the bulk fetch
fails; once the flag is set, any later load is a no-op performing no fetch,
and every later `getTokenInfo` on the (still empty) bulk cache performs no
bulk fetch and resolves through the per-token search or the synthetic
fallback. -/
theorem loadJupiterTokens_single_attempt (env env' : TransformEnv)
    (c : List (String × JupToken)) (st : CacheState) (mint : String)
    (pd : Option PriceEntry)
    (hfail : env.bulkTokens = none) (hloaded : st.loaded = true) :
    loadJupiterTokens env { cache := c, loaded := false } =
      ({ cache := c, loaded := true }, [NetEffect.bulkTokenFetch])
    ∧ loadJupiterTokens env' st = (st, [])
    ∧ NetEffect.bulkTokenFetch ∉
        (getTokenInfo env' { cache := [], loaded := true } mint pd).2.2
    ∧ (getTokenInfo env' { cache := [], loaded := true } mint pd).1 =
        (match env'.searchResp mint with
         | some rs =>
           match rs.find? (fun t => t.id == mint) with
           | some exactMatch => fromCachedToken exactMatch pd
           | none => syntheticToken mint pd
         | none => syntheticToken mint pd) := by
  have hld : loadJupiterTokens env' { cache := [], loaded := true }
      = ({ cache := [], loaded := true }, []) := by
    simp [loadJupiterTokens]
  refine ⟨?_, ?_, ?_, ?_⟩
  · simp [loadJupiterTokens, hfail]
  · simp [loadJupiterTokens, hloaded]
  · unfold getTokenInfo
    rw [hld]
    cases hrs : env'.searchResp mint with
    | none => simp [assocGet, hrs]
    | some rs =>
      cases hfind : rs.find? (fun t => t.id == mint) with
      | none => simp [assocGet, hrs, hfind]
      | some exactMatch => simp [assocGet, hrs, hfind]
  · unfold getTokenInfo
    rw [hld]
    cases hrs : env'.searchResp mint with
    | none => simp [assocGet, hrs]
    | some rs =>
      cases hfind : rs.find? (fun t => t.id == mint) with
      | none => simp [assocGet, hrs, hfind]
      | some exactMatch => simp [assocGet, hrs, hfind]

/-- Witness for C9 with the concrete failing environment. -/
theorem loadJupiterTokens_single_attempt_witness :
    loadJupiterTokens failEnv { cache := [], loaded := false } =
      ({ cache := [], loaded := true }, [NetEffect.bulkTokenFetch])
    ∧ loadJupiterTokens failEnv { cache := [], loaded := true }
        = ({ cache := [], loaded := true }, [])
    ∧ NetEffect.bulkTokenFetch ∉
        (getTokenInfo failEnv { cache := [], loaded := true } "MINTX" none).2.2
    ∧ (getTokenInfo failEnv { cache := [], loaded := true } "MINTX" none).1 =
        (match failEnv.searchResp "MINTX" with
         | some rs =>
           match rs.find? (fun t => t.id == "MINTX") with
           | some exactMatch => fromCachedToken exactMatch none
           | none => syntheticToken "MINTX" none
         | none => syntheticToken "MINTX" none) :=
  loadJupiterTokens_single_attempt failEnv failEnv [] { cache := [], loaded := true }
    "MINTX" none rfl rfl

/-! ## C8 and C10: the handler on the valid-signature path -/

/-- On a well-formed request with a valid signature and a configured key,
the handler's behaviour is fully determined by the ledger response and the
transformer. -/
theorem POST_valid_path (env : HandlerEnv) (st : CacheState) (s : String)
    (hbody : env.bodyParse = some (some s))
    (hval : isValidSolanaSignature s = true)
    (hkey : env.apiKeyPresent = true) :
    POST env st =
      match env.ledger with
      | none =>
        ({ status := 404,
           error := some "Transaction not found. The transaction may not exist or the network is experiencing issues.",
           details := none, result := none }, st, [NetEffect.ledgerFetch s])
      | some tx =>
        match transformTransaction env.tenv tx s st with
        | (Except.error msg, st', effs) =>
          ({ status := 500,
             error := some "Internal server error occurred while analyzing transaction",
             details := some msg, result := none }, st',
           NetEffect.ledgerFetch s :: effs)
        | (Except.ok r, st', effs) =>
          ({ status := 200, error := none, details := none, result := r }, st',
           NetEffect.ledgerFetch s :: effs) := by
  have hne : s ≠ "" := valid_signature_ne_empty s hval
  unfold POST
  rw [hbody]
  simp [hne, hval, hkey]

/-- C8: when the text-generation call fails for every prompt, the produced
explanations equal the per-classification canned fallbacks (falling back to
the "Unknown" bucket when the classification has no dedicated bucket). -/
theorem transformCore_llm_fallback (env : TransformEnv) (meta : TxMeta)
    (ks : List String) (instrs : List Instr) (bt : Option Int) (sig : String)
    (st : CacheState) (hllm : env.llm = fun _ => none) :
    (transformCore env meta ks instrs bt sig st).1.explanations.beginner
        = fallbackBeginner ((transformCore env meta ks instrs bt sig st).1.type)
    ∧ (transformCore env meta ks instrs bt sig st).1.explanations.developer
        = fallbackDeveloper ((transformCore env meta ks instrs bt sig st).1.type) := by
  constructor
  · show (generateBeginnerExplanation env
        (determineTransactionType (collectProgramIds ks instrs)) _ _ _).1 = _
    simp [generateBeginnerExplanation, hllm]
    rfl
  · show (generateDeveloperExplanation env
        (determineTransactionType (collectProgramIds ks instrs)) _ _ _).1 = _
    simp [generateDeveloperExplanation, hllm]
    rfl

/-- C8 (handler level): with every text-generation call failing, a
well-formed request still completes with status 200 and the canned fallback
explanations for the record's classification. -/
theorem post_llm_failure_200 (env : HandlerEnv) (st : CacheState) (tx : ParsedTx)
    (s : String) (msg : TxMessage) (meta : TxMeta) (ks : List String)
    (hbody : env.bodyParse = some (some s))
    (hval : isValidSolanaSignature s = true)
    (hkey : env.apiKeyPresent = true)
    (hledger : env.ledger = some tx)
    (htx : tx.transaction = some msg)
    (hmeta : tx.meta = some meta)
    (hks : msg.accountKeys = some ks)
    (hllm : env.tenv.llm = fun _ => none) :
    (POST env st).1.status = 200
    ∧ ((POST env st).1.result).isSome = true
    ∧ ∀ r, (POST env st).1.result = some r →
        r.explanations.beginner = fallbackBeginner r.type ∧
        r.explanations.developer = fallbackDeveloper r.type := by
  have htrans : transformTransaction env.tenv tx s st =
      (Except.ok (some (transformCore env.tenv meta ks msg.instructions tx.blockTime s st).1),
       (transformCore env.tenv meta ks msg.instructions tx.blockTime s st).2.1,
       (transformCore env.tenv meta ks msg.instructions tx.blockTime s st).2.2) := by
    unfold transformTransaction
    simp only [htx, hmeta, hks]
  have hres : (POST env st).1 =
      { status := 200, error := none, details := none,
        result := some (transformCore env.tenv meta ks msg.instructions tx.blockTime s st).1 } := by
    rw [POST_valid_path env st s hbody hval hkey]
    simp only [hledger, htrans]
  refine ⟨by rw [hres], by rw [hres]; rfl, ?_⟩
  intro r hr
  rw [hres] at hr
  simp only [Option.some.injEq] at hr
  subst hr
  exact transformCore_llm_fallback env.tenv meta ks msg.instructions tx.blockTime s st hllm

def okMessage : TxMessage := { accountKeys := some ["feePayer"], instructions := [] }

def okTx : ParsedTx :=
  { transaction := some okMessage
    meta := some cexMeta
    blockTime := none }

def c8Env : HandlerEnv :=
  { bodyParse := some (some sig88)
    activeLLM := "groq"
    apiKeyPresent := true
    ledger := some okTx
    tenv := failEnv }

/-- Witness for C8 with a concrete found transaction and a failing LLM. -/
theorem post_llm_failure_200_witness :
    (POST c8Env initialCacheState).1.status = 200
    ∧ ((POST c8Env initialCacheState).1.result).isSome = true
    ∧ ∀ r, (POST c8Env initialCacheState).1.result = some r →
        r.explanations.beginner = fallbackBeginner r.type ∧
        r.explanations.developer = fallbackDeveloper r.type :=
  post_llm_failure_200 c8Env initialCacheState okTx sig88 okMessage cexMeta ["feePayer"]
    rfl (by decide) rfl rfl rfl rfl rfl rfl

/-! ## C10: found but structurally incomplete record ⇒ 500, not 404 -/

/-- C10: if the ledger returns a record whose `meta` or `accountKeys` is
absent, `transformTransaction` throws `"Invalid transaction structure"` and
the handler maps it to a 500 server error (not a 404), carrying that message
in the error details. -/
theorem post_invalid_structure_500 (env : HandlerEnv) (st : CacheState) (tx : ParsedTx)
    (s : String) (msg : TxMessage)
    (hbody : env.bodyParse = some (some s))
    (hval : isValidSolanaSignature s = true)
    (hkey : env.apiKeyPresent = true)
    (hledger : env.ledger = some tx)
    (htx : tx.transaction = some msg)
    (hbad : tx.meta = none ∨ msg.accountKeys = none) :
    transformTransaction env.tenv tx s st
      = (Except.error "Invalid transaction structure", st, [])
    ∧ (POST env st).1.status = 500
    ∧ (POST env st).1.details = some "Invalid transaction structure"
    ∧ (POST env st).1.status ≠ 404 := by
  have htrans : transformTransaction env.tenv tx s st
      = (Except.error "Invalid transaction structure", st, []) := by
    unfold transformTransaction
    rcases hbad with h | h
    · simp only [htx, h]
    · cases hm : tx.meta with
      | none => simp only [htx, hm]
      | some meta => simp only [htx, hm, h]
  have hres : (POST env st).1 =
      { status := 500,
        error := some "Internal server error occurred while analyzing transaction",
        details := some "Invalid transaction structure", result := none } := by
    rw [POST_valid_path env st s hbody hval hkey]
    simp only [hledger, htrans]
  exact ⟨htrans, by rw [hres], by rw [hres], by rw [hres]; decide⟩

def badTx : ParsedTx :=
  { transaction := some okMessage
    meta := none
    blockTime := none }

def c10Env : HandlerEnv :=
  { bodyParse := some (some sig88)
    activeLLM := "groq"
    apiKeyPresent := true
    ledger := some badTx
    tenv := failEnv }

/-- Witness for C10 with a concrete found-but-incomplete record. -/
theorem post_invalid_structure_500_witness :
    transformTransaction c10Env.tenv badTx sig88 initialCacheState
      = (Except.error "Invalid transaction structure", initialCacheState, [])
    ∧ (POST c10Env initialCacheState).1.status = 500
    ∧ (POST c10Env initialCacheState).1.details = some "Invalid transaction structure"
    ∧ (POST c10Env initialCacheState).1.status ≠ 404 :=
  post_invalid_structure_500 c10Env initialCacheState badTx sig88 okMessage
    rfl (by decide) rfl rfl rfl (Or.inl rfl)
